import Mathlib

/-!
Shallow embedding of the OTIF vendor-analysis pipeline
(`pages/4_Vendor_OTIF.py`): column-name normalization, load/clean,
type coercion and row filtering, item-category enrichment, lead-time
resolution, and PO-level OTIF aggregation, together with theorems
settling the specification claims about these functions.

Tables are embedded as lists of rows; pandas missing values (NaN/NaT)
are embedded as `Option.none`; float quantities as exact rationals;
timestamps as proleptic-Gregorian serial day numbers (`Int`).
-/

namespace OTIF

/- Let concrete rational arithmetic evaluate inside `decide`. -/
attribute [local semireducible] Rat.mul Rat.inv Rat.add Rat.sub

/-! ## Python string helpers

`str.strip()` / `re.sub(r'\s+', ...)` whitespace (the characters
relevant here: space, tab, newline, carriage return, vertical tab,
form feed, and the non-breaking space U+00A0). -/

def isPySpace (c : Char) : Bool :=
  c == ' ' || c == '\t' || c == '\n' || c == '\r' ||
  c == Char.ofNat 11 || c == Char.ofNat 12 || c == Char.ofNat 160

/-- Python `str.strip()`. -/
def pyStrip (s : String) : String :=
  ⟨((s.data.dropWhile isPySpace).reverse.dropWhile isPySpace).reverse⟩

/-- Python `re.sub(r' ', ' ', s)`. -/
def nbspToSpace (s : String) : String :=
  ⟨s.data.map (fun c => if c == Char.ofNat 160 then ' ' else c)⟩

/-- One step of `re.sub(r'\s+', ' ', s)`: replace each maximal run of
whitespace characters with a single space. -/
def collapseRuns : List Char → List Char
  | [] => []
  | [c] => if isPySpace c then [' '] else [c]
  | c :: d :: rest =>
      if isPySpace c && isPySpace d then collapseRuns (d :: rest)
      else (if isPySpace c then ' ' else c) :: collapseRuns (d :: rest)

/-- The whitespace cleanup performed at the start of `canon` in
`standardize_column_names`: strip, convert NBSP to space, collapse
whitespace runs, strip again. -/
def cleanWs (col : String) : String :=
  pyStrip ⟨collapseRuns (nbspToSpace (pyStrip col)).data⟩

/-- Python `str.lower()` (ASCII range, the only one occurring here). -/
def lowerStr (s : String) : String := ⟨s.data.map Char.toLower⟩

/-- Python `str.upper()` (ASCII range, the only one occurring here). -/
def upperStr (s : String) : String := ⟨s.data.map Char.toUpper⟩

def isAsciiAlnum (c : Char) : Bool :=
  ('A' ≤ c && c ≤ 'Z') || ('a' ≤ c && c ≤ 'z') || ('0' ≤ c && c ≤ '9')

/-- `re.sub(r'[^A-Za-z0-9]', '', s).lower()`: the comparison key. -/
def keyOf (s : String) : String :=
  ⟨(s.data.filter isAsciiAlnum).map Char.toLower⟩

/-! ## Canonical column names (source constants) -/

def COL_MAT_TYPE : String := "Mat Type"
def COL_MATERIAL_CODE : String := "Material Code"
def COL_MATERIAL_NAME : String := "Material Name"
def COL_UOM : String := "UOM"
def COL_PO_DT : String := "P.O. Dt."
def COL_PO_NO : String := "P. O. No."
def COL_SUPPLIER : String := "Supplier"
def COL_PO_QTY : String := "PO Qty."
def COL_GNR_DT : String := "GNR Dt."
def COL_INWARD_QTY : String := "Inward Qty."
def COL_ITEM_CAT : String := "Item Category"

def REQUIRED_COLS : List String :=
  [COL_MAT_TYPE, COL_MATERIAL_CODE, COL_MATERIAL_NAME, COL_UOM,
   COL_PO_DT, COL_PO_NO, COL_SUPPLIER, COL_PO_QTY, COL_GNR_DT, COL_INWARD_QTY]

/-- Per-column mapping of `standardize_column_names`: clean whitespace,
build the comparison key, look the key up in the synonym table; an
unmatched key falls through to `return col` (the original header). -/
def canon (col : String) : String :=
  let s := cleanWs col
  let k := keyOf s
  if k ∈ ["mattype", "materialtype"] then COL_MAT_TYPE
  else if k ∈ ["materialcode", "matcode", "material_code"] then COL_MATERIAL_CODE
  else if k ∈ ["materialname", "itemname", "material"] then COL_MATERIAL_NAME
  else if k = "uom" then COL_UOM
  else if k ∈ ["podt", "podat", "podate", "podate"] then COL_PO_DT
  else if k ∈ ["pono", "ponumber", "po"] then COL_PO_NO
  else if k ∈ ["supplier", "suppliername"] then COL_SUPPLIER
  else if k ∈ ["poqty", "purchaseorderqty", "quantityordered", "quantity"] then COL_PO_QTY
  else if k ∈ ["gnrdt", "grndt", "grndate", "grn", "grndate"] then COL_GNR_DT
  else if k ∈ ["inwardqty", "inwardquantity", "receivedqty", "receivedquantity"] then COL_INWARD_QTY
  else if k ∈ ["itemcategory", "itemcat", "category"] then COL_ITEM_CAT
  else col

/-- All keys of the synonym table of `canon`. -/
def synonymKeys : List String :=
  ["mattype", "materialtype",
   "materialcode", "matcode", "material_code",
   "materialname", "itemname", "material",
   "uom",
   "podt", "podat", "podate", "podate",
   "pono", "ponumber", "po",
   "supplier", "suppliername",
   "poqty", "purchaseorderqty", "quantityordered", "quantity",
   "gnrdt", "grndt", "grndate", "grn", "grndate",
   "inwardqty", "inwardquantity", "receivedqty", "receivedquantity",
   "itemcategory", "itemcat", "category"]

/-- `standardize_column_names` applied to the header sequence. -/
def standardize_column_names (cols : List String) : List String :=
  cols.map canon

/-! ## Loading, type coercion and row filtering

`try_read_excel` (the spreadsheet engine) is the out-of-scope I/O
boundary; `load_and_clean` is embedded from the point where a parsed
table's headers exist.  A raw row's date/quantity cells are embedded
as the result of the pandas coercion of that cell
(`pd.to_datetime`/`pd.to_numeric` with coercion of failures to
missing): `none` is a cell whose raw content does not parse. -/

structure RawRow where
  matType : String
  materialCode : String
  materialName : String
  uom : String
  poDt : Option Int
  poNo : String
  supplier : String
  poQty : Option ℚ
  gnrDt : Option Int
  inwardQty : Option ℚ
  itemCat : Option String
deriving Repr, DecidableEq, Inhabited

/-- `load_and_clean` after the Excel read: standardize the headers,
fail when any required canonical column is missing, otherwise keep the
required columns plus the optional item-category column. -/
def load_and_clean (headers : List String) : Except String (List String) :=
  let cols := standardize_column_names headers
  let missing := REQUIRED_COLS.filter (fun c => ¬ c ∈ cols)
  if missing ≠ [] then
    Except.error "Input file missing required columns"
  else
    Except.ok (REQUIRED_COLS ++ ([COL_ITEM_CAT].filter (fun c => c ∈ cols)))

/-- `ensure_types_and_drop_nulls`: after coercion, drop every row
missing any of PO date, GRN date, PO qty, inward qty.  Never fails. -/
def ensure_types_and_drop_nulls (rows : List RawRow) : List RawRow :=
  rows.filter (fun r =>
    r.poDt.isSome && r.gnrDt.isSome && r.poQty.isSome && r.inwardQty.isSome)

/-! ## Item-category enrichment (`merge_item_category`)

The hard-coded `df1` reference table (Material Code → Item Category)
is data, not logic; it enters here as the `ref` association list.
`hasItemCat` embeds the `COL_ITEM_CAT not in df.columns` branch: when
the column is absent every row's `itemCat` is `none`. -/

structure CatRow where
  materialCode : String
  itemCat : Option String
deriving Repr, DecidableEq, Inhabited

/-- The categories `ref` associates to a material code (a pandas merge
matches every occurrence of the key). -/
def lookupCats (ref : List (String × String)) (code : String) : List String :=
  (ref.filter (fun p => p.1 = code)).map (fun p => p.2)

/-- `df.merge(df1, on=COL_MATERIAL_CODE, how="left")`: each left row
is paired with every matching reference row, or with `none` when the
reference has no match. -/
def leftJoinCats (ref : List (String × String)) (df : List CatRow) :
    List (CatRow × Option String) :=
  df.flatMap (fun r =>
    match lookupCats ref r.materialCode with
    | [] => [(r, none)]
    | ms => ms.map (fun m => (r, some m)))

/-- `merge_item_category`: without an item-category column the joined
category is taken (filled to `""` when missing); with one, existing
values win and only missing values are backfilled from the join, then
the final `fillna("")` makes the column null-free. -/
def merge_item_category (ref : List (String × String)) (hasItemCat : Bool)
    (df : List CatRow) : List CatRow :=
  match hasItemCat with
  | false =>
      (leftJoinCats ref df).map (fun rm =>
        { rm.1 with itemCat := some (rm.2.getD "") })
  | true =>
      (leftJoinCats ref df).map (fun rm =>
        { rm.1 with itemCat := some ((rm.1.itemCat.orElse (fun _ => rm.2)).getD "") })

/-! ## Lead-time resolution -/

def DEFAULT_RULES : List (String × Nat) := [("RM", 30), ("SPM", 15), ("TPM", 15)]

def DEFAULT_PPM_LT : Nat := 30

def PPM_CATEGORY_MAP : List (Nat × List String) :=
  [(7,  ["Vial", "Rubber Stopper", "Rubber", "Stopper", "Seal", "Cap",
         "Collar", "Inner Cap", "Outer Cap"]),
   (12, ["Ampoule", "Amp"]),
   (90, ["Pfs Syringe", "Plunger Stopper", "Plunger", "U plug", "U-plug"]),
   (15, ["Al Tube", "Plastic Bottle", "Plastic Nozzle", "Nozzle"])]

/-- Python `mat_type in rules` / `rules[mat_type]` on the rule dict. -/
def lookupRule : List (String × Nat) → String → Option Nat
  | [], _ => none
  | p :: ps, k => if p.1 = k then some p.2 else lookupRule ps k

/-- The `for lt, cats in PPM_CATEGORY_MAP.items()` loop: return the
first bucket whose lower-cased member list contains `low`. -/
def findBucket : List (Nat × List String) → String → Option Nat
  | [], _ => none
  | p :: ps, low =>
      if low ∈ p.2.map (fun c => lowerStr c) then some p.1 else findBucket ps low

/-- `compute_lead_time_for_row`: rule-set lookup on the trimmed
upper-cased material type; the PPM category sub-rule; `none` embeds
the `np.nan` returned for an unknown non-PPM type. -/
def compute_lead_time_for_row (rules : List (String × Nat))
    (matType itemCat : String) : Option Nat :=
  let mt := upperStr (pyStrip matType)
  match lookupRule rules mt with
  | some v => some v
  | none =>
      if mt = "PPM" then
        let cat := pyStrip itemCat
        if cat ≠ "" then
          match findBucket PPM_CATEGORY_MAP (lowerStr cat) with
          | some lt => some lt
          | none => some DEFAULT_PPM_LT
        else some DEFAULT_PPM_LT
      else none

/-- The lower-cased member list of the bucket keyed `lt` in
`PPM_CATEGORY_MAP`. -/
def lowsOf (lt : Nat) : List String :=
  ((PPM_CATEGORY_MAP.filter (fun p => p.1 = lt)).flatMap (fun p => p.2)).map
    (fun c => lowerStr c)

/-! ## Calendar (pandas `.dt.year` / `.dt.month` / `strftime("%b")`)

Serial day numbers (days since 1970-01-01) to proleptic-Gregorian
civil dates, and back. -/

/-- Civil date (year, month, day) of a serial day number. -/
def civilFromDays (days : Int) : Int × Int × Int :=
  let z := days + 719468
  let era := Int.fdiv z 146097
  let doe := z - era * 146097
  let yoe := (doe - doe / 1460 + doe / 36524 - doe / 146096) / 365
  let y := yoe + era * 400
  let doy := doe - (365 * yoe + yoe / 4 - yoe / 100)
  let mp := (5 * doy + 2) / 153
  let d := doy - (153 * mp + 2) / 5 + 1
  let m := if mp < 10 then mp + 3 else mp - 9
  (if m ≤ 2 then y + 1 else y, m, d)

/-- Serial day number of a civil date. -/
def daysFromCivil (y m d : Int) : Int :=
  let y2 := if m ≤ 2 then y - 1 else y
  let era := Int.fdiv y2 400
  let yoe := y2 - era * 400
  let mp := if m > 2 then m - 3 else m + 9
  let doy := (153 * mp + 2) / 5 + d - 1
  let doe := yoe * 365 + yoe / 4 - yoe / 100 + doy
  era * 146097 + doe - 719468

def yearOfDay (d : Int) : Int := (civilFromDays d).1

def monthOfDay (d : Int) : Int := (civilFromDays d).2.1

/-- `strftime("%b")` month abbreviation. -/
def monthAbbrev (m : Int) : String :=
  if m = 1 then "Jan" else if m = 2 then "Feb" else if m = 3 then "Mar"
  else if m = 4 then "Apr" else if m = 5 then "May" else if m = 6 then "Jun"
  else if m = 7 then "Jul" else if m = 8 then "Aug" else if m = 9 then "Sep"
  else if m = 10 then "Oct" else if m = 11 then "Nov" else "Dec"

/-! ## PO-level metrics (`compute_po_level_metrics`)

Input rows are the filtered, coerced, category-enriched lines with
the `Lead Time` column already assigned on every row (the page stops
before aggregation when any lead time is missing). -/

structure Row where
  matType : String
  materialCode : String
  materialName : String
  uom : String
  poDt : Int
  poNo : String
  supplier : String
  poQty : ℚ
  gnrDt : Int
  inwardQty : ℚ
  itemCat : String
  leadTime : Nat
deriving Repr, DecidableEq, Inhabited

/-- Distinct elements in order of first occurrence (the key order that
`drop_duplicates(subset=[COL_PO_NO])` induces on the collapsed rows). -/
def dedupFirstAux {α : Type} [DecidableEq α] (seen : List α) : List α → List α
  | [] => []
  | x :: xs =>
      if x ∈ seen then dedupFirstAux seen xs
      else x :: dedupFirstAux (x :: seen) xs

def dedupFirst {α : Type} [DecidableEq α] (l : List α) : List α :=
  dedupFirstAux [] l

/-- Maximum of a list (pandas `groupby(...).max()` on a column). -/
def listMax : List Int → Option Int
  | [] => none
  | x :: xs =>
      match listMax xs with
      | none => some x
      | some m => some (max x m)

/-- The distinct PO numbers, in first-occurrence order. -/
def poNosOf (df : List Row) : List String :=
  dedupFirst (df.map (fun r => r.poNo))

/-- The distinct `(PO number, material code)` group keys of
`df.groupby([COL_PO_NO, COL_MATERIAL_CODE])`. -/
def itemKeysOf (df : List Row) : List (String × String) :=
  dedupFirst (df.map (fun r => (r.poNo, r.materialCode)))

def itemLines (df : List Row) (po mat : String) : List Row :=
  df.filter (fun r => r.poNo = po ∧ r.materialCode = mat)

/-- Summed ordered quantity of a `(PO, material)` group. -/
def orderedSum (df : List Row) (po mat : String) : ℚ :=
  ((itemLines df po mat).map (fun r => r.poQty)).sum

/-- Summed inward quantity of a `(PO, material)` group. -/
def inwardSum (df : List Row) (po mat : String) : ℚ :=
  ((itemLines df po mat).map (fun r => r.inwardQty)).sum

/-- `Fulfilled` flag of a `(PO, material)` group:
`inward >= 0.95 * ordered`, as 0/1. -/
def itemFulfilled (df : List Row) (po mat : String) : Nat :=
  if inwardSum df po mat ≥ (95 / 100 : ℚ) * orderedSum df po mat then 1 else 0

/-- `PO_Fulfilled`: `groupby(PO)["Fulfilled"].min()`. -/
def po_fulfilled (df : List Row) (po : String) : Nat :=
  ((((itemKeysOf df).filter (fun k => k.1 = po)).map
      (fun k => itemFulfilled df k.1 k.2)).foldr min 1)

/-- `po_ontime`: 1 iff every line of the PO has
`GNR date <= PO date + that line's lead time` (in days). -/
def po_ontime (df : List Row) (po : String) : Nat :=
  if (df.filter (fun r => r.poNo = po)).all
      (fun r => r.gnrDt ≤ r.poDt + (r.leadTime : Int)) then 1 else 0

/-- `groupby(PO)[GNR].max()`, the PO's bucketing GRN date. -/
def bucketGnr (df : List Row) (po : String) : Int :=
  (listMax ((df.filter (fun r => r.poNo = po)).map (fun r => r.gnrDt))).getD 0

structure PORow where
  line : Row
  poFulfilled : Nat
  onTime : Nat
  otif : Nat
  gnrDt : Int
  year : Int
  monthNum : Int
  month : String
deriving Repr, DecidableEq, Inhabited

/-- The collapsed one-row-per-PO aggregate: the first line of the PO
(what `drop_duplicates` keeps) enriched with `PO_Fulfilled`, `OnTime`,
`OTIF = PO_Fulfilled * OnTime`, the bucketing GRN date (the maximum
over the PO's lines) and the Year/Month fields derived from it. -/
def mkPORow (df : List Row) (po : String) : PORow :=
  { line := ((df.filter (fun r => r.poNo = po)).head?).getD default
    poFulfilled := po_fulfilled df po
    onTime := po_ontime df po
    otif := po_fulfilled df po * po_ontime df po
    gnrDt := bucketGnr df po
    year := yearOfDay (bucketGnr df po)
    monthNum := monthOfDay (bucketGnr df po)
    month := monthAbbrev (monthOfDay (bucketGnr df po)) }

/-- `compute_po_level_metrics`, second return value (`df_po`): one
aggregate row per distinct PO number, in first-occurrence order. -/
def compute_po_level_metrics (df : List Row) : List PORow :=
  (poNosOf df).map (mkPORow df)

/-! ## Concrete example data (used by the witness theorems) -/

/-- PO `P1`, item `M1`: in full (100 of 100), received Jan-15. -/
def exR1 : Row :=
  { matType := "RM"
    materialCode := "M1"
    materialName := "N1"
    uom := "KG"
    poDt := daysFromCivil 2024 1 1
    poNo := "P1"
    supplier := "S1"
    poQty := 100
    gnrDt := daysFromCivil 2024 1 15
    inwardQty := 100
    itemCat := ""
    leadTime := 30 }

/-- PO `P1`, item `M2`: under-delivered (90 of 100) and received
Feb-3, later than Jan-1 + 30 days. -/
def exR2 : Row :=
  { exR1 with
    materialCode := "M2"
    inwardQty := 90
    gnrDt := daysFromCivil 2024 2 3 }

/-- PO `P2`: a single line, in full and on time. -/
def exR3 : Row :=
  { exR1 with
    poNo := "P2"
    supplier := "S2"
    poQty := 50
    inwardQty := 50
    gnrDt := daysFromCivil 2024 1 20 }

def exDf : List Row := [exR1, exR2, exR3]

/-- The first aggregate row (PO `P1`) of the example. -/
def exPO1 : PORow := ((compute_po_level_metrics exDf).head?).getD default

/-- Header variants covering all ten required columns. -/
def exHeaders : List String :=
  ["mat type", "Material Code", "Material Name", "UOM", "PO Date",
   "PO No", "Supplier", "PO Qty", "GRN Date", "Inward Qty"]

/-- A raw row whose four critical cells all parsed. -/
def exRawGood : RawRow :=
  { matType := "RM"
    materialCode := "M1"
    materialName := "N1"
    uom := "KG"
    poDt := some 0
    poNo := "P1"
    supplier := "S1"
    poQty := some 1
    gnrDt := some 2
    inwardQty := some 1
    itemCat := none }

/-- A raw row whose PO quantity failed to parse (coerced to missing). -/
def exRawBad : RawRow := { exRawGood with poQty := none }

def exRaw : List RawRow := [exRawGood, exRawBad]

/-- A small category reference table. -/
def exRef : List (String × String) := [("M1", "Vial")]

def exCat1 : CatRow := { materialCode := "M1", itemCat := none }

def exCat2 : CatRow := { materialCode := "M2", itemCat := some "Tube" }

def exCatDf : List CatRow := [exCat1, exCat2]

/-! ## Helper lemmas -/

theorem mem_dedupFirstAux {α : Type} [DecidableEq α] (l : List α) :
    ∀ (seen : List α) (a : α), a ∈ dedupFirstAux seen l ↔ a ∈ l ∧ a ∉ seen := by
  induction l with
  | nil => intro seen a; simp [dedupFirstAux]
  | cons x xs ih =>
      intro seen a
      by_cases hx : x ∈ seen
      · rw [dedupFirstAux, if_pos hx, ih]
        constructor
        · rintro ⟨ha, hs⟩; exact ⟨List.mem_cons_of_mem _ ha, hs⟩
        · rintro ⟨ha, hs⟩
          rcases List.mem_cons.mp ha with rfl | ha
          · exact absurd hx hs
          · exact ⟨ha, hs⟩
      · rw [dedupFirstAux, if_neg hx]
        constructor
        · intro h
          rcases List.mem_cons.mp h with rfl | h
          · exact ⟨List.mem_cons_self _ _, hx⟩
          · rcases (ih _ _).mp h with ⟨ha, hs⟩
            refine ⟨List.mem_cons_of_mem _ ha, fun hseen => hs ?_⟩
            exact List.mem_cons_of_mem _ hseen
        · rintro ⟨ha, hs⟩
          rcases List.mem_cons.mp ha with rfl | ha
          · exact List.mem_cons_self _ _
          · by_cases hax : a = x
            · subst hax; exact List.mem_cons_self _ _
            · refine List.mem_cons_of_mem _ ((ih _ _).mpr ⟨ha, ?_⟩)
              intro hmem
              rcases List.mem_cons.mp hmem with rfl | h
              · exact hax rfl
              · exact hs h

theorem mem_dedupFirst {α : Type} [DecidableEq α] (l : List α) (a : α) :
    a ∈ dedupFirst l ↔ a ∈ l := by
  rw [dedupFirst, mem_dedupFirstAux]
  simp

theorem nodup_dedupFirstAux {α : Type} [DecidableEq α] (l : List α) :
    ∀ seen : List α, (dedupFirstAux seen l).Nodup := by
  induction l with
  | nil => intro seen; simp [dedupFirstAux]
  | cons x xs ih =>
      intro seen
      by_cases hx : x ∈ seen
      · rw [dedupFirstAux, if_pos hx]; exact ih seen
      · rw [dedupFirstAux, if_neg hx]
        refine List.nodup_cons.mpr ⟨fun hmem => ?_, ih _⟩
        rcases (mem_dedupFirstAux _ _ _).mp hmem with ⟨_, hs⟩
        exact hs (List.mem_cons_self _ _)

theorem nodup_dedupFirst {α : Type} [DecidableEq α] (l : List α) :
    (dedupFirst l).Nodup := nodup_dedupFirstAux l []

theorem toFinset_dedupFirst {α : Type} [DecidableEq α] (l : List α) :
    (dedupFirst l).toFinset = l.toFinset := by
  ext a
  simp [List.mem_toFinset, mem_dedupFirst]

/-- The number of distinct elements of `l` is the length of its
first-occurrence dedup. -/
theorem length_dedupFirst {α : Type} [DecidableEq α] (l : List α) :
    (dedupFirst l).length = l.toFinset.card := by
  rw [← toFinset_dedupFirst]
  exact (List.toFinset_card_of_nodup (nodup_dedupFirst l)).symm

theorem listMax_mem : ∀ (l : List Int) (m : Int), listMax l = some m → m ∈ l := by
  intro l
  induction l with
  | nil => intro m h; simp [listMax] at h
  | cons x xs ih =>
      intro m h
      rw [listMax] at h
      cases hxs : listMax xs with
      | none => rw [hxs] at h; simp at h; subst h; exact List.mem_cons_self _ _
      | some k =>
          rw [hxs] at h
          simp at h
          rcases max_choice x k with hmax | hmax
          · rw [hmax] at h; subst h; exact List.mem_cons_self _ _
          · rw [hmax] at h; subst h; exact List.mem_cons_of_mem _ (ih k hxs)

theorem listMax_eq_none : ∀ (l : List Int), listMax l = none ↔ l = [] := by
  intro l
  cases l with
  | nil => simp [listMax]
  | cons x xs =>
      rw [listMax]
      cases listMax xs with
      | none => simp
      | some k => simp

theorem listMax_ub : ∀ (l : List Int) (m : Int), listMax l = some m →
    ∀ x ∈ l, x ≤ m := by
  intro l
  induction l with
  | nil => intro m _ x hx; simp at hx
  | cons y ys ih =>
      intro m h x hx
      rw [listMax] at h
      cases hys : listMax ys with
      | none =>
          rw [hys] at h
          simp at h
          subst h
          rw [listMax_eq_none] at hys
          subst hys
          rcases List.mem_cons.mp hx with rfl | hx
          · exact le_refl _
          · simp at hx
      | some k =>
          rw [hys] at h
          simp at h
          subst h
          rcases List.mem_cons.mp hx with rfl | hx
          · exact le_max_left _ _
          · exact le_trans (ih k hys x hx) (le_max_right _ _)

theorem listMax_isSome : ∀ (l : List Int), l ≠ [] → ∃ m, listMax l = some m := by
  intro l h
  cases l with
  | nil => exact absurd rfl h
  | cons x xs =>
      rw [listMax]
      cases listMax xs with
      | none => exact ⟨x, rfl⟩
      | some k => exact ⟨max x k, rfl⟩

/-- `min`-fold over 0/1 flags is 1 exactly when every flag is 1. -/
theorem foldr_min_flags (l : List Nat) (hl : ∀ x ∈ l, x = 0 ∨ x = 1) :
    (l.foldr min 1 = 1 ↔ ∀ x ∈ l, x = 1) ∧
    (l.foldr min 1 = 0 ∨ l.foldr min 1 = 1) := by
  induction l with
  | nil => simp
  | cons x xs ih =>
      have hx := hl x (List.mem_cons_self _ _)
      have hxs : ∀ y ∈ xs, y = 0 ∨ y = 1 :=
        fun y hy => hl y (List.mem_cons_of_mem _ hy)
      rcases ih hxs with ⟨ih1, ih2⟩
      constructor
      · simp only [List.foldr_cons, List.mem_cons]
        constructor
        · intro h y hy
          rcases hy with rfl | hy
          · rcases hx with h0 | h1
            · rw [h0] at h; simp at h
            · exact h1
          · apply ih1.mp _ y hy
            rcases ih2 with hz | ho
            · rw [hz] at h; simp at h
            · exact ho
        · intro h
          rw [h x (Or.inl rfl), ih1.mpr (fun y hy => h y (Or.inr hy))]
          simp
      · simp only [List.foldr_cons]
        rcases hx with h | h <;> rcases ih2 with h2 | h2 <;> simp [h, h2]

theorem itemFulfilled_binary (df : List Row) (po mat : String) :
    itemFulfilled df po mat = 0 ∨ itemFulfilled df po mat = 1 := by
  rw [itemFulfilled]
  split <;> simp

theorem po_fulfilled_binary (df : List Row) (po : String) :
    po_fulfilled df po = 0 ∨ po_fulfilled df po = 1 := by
  rw [po_fulfilled]
  refine (foldr_min_flags _ ?_).2
  intro x hx
  rcases List.mem_map.mp hx with ⟨k, _, rfl⟩
  exact itemFulfilled_binary df k.1 k.2

theorem po_ontime_binary (df : List Row) (po : String) :
    po_ontime df po = 0 ∨ po_ontime df po = 1 := by
  rw [po_ontime]
  split <;> simp

/-- Membership in the PO-level aggregate comes from a distinct PO
number of the input. -/
theorem mem_compute_po (df : List Row) (p : PORow)
    (hp : p ∈ compute_po_level_metrics df) :
    ∃ po, po ∈ poNosOf df ∧ p = mkPORow df po := by
  rcases List.mem_map.mp hp with ⟨po, hpo, rfl⟩
  exact ⟨po, hpo, rfl⟩

/-- A PO number of the aggregate has at least one input line. -/
theorem poNosOf_exists_line (df : List Row) (po : String)
    (hpo : po ∈ poNosOf df) : ∃ r ∈ df, r.poNo = po := by
  rcases List.mem_map.mp ((mem_dedupFirst _ _).mp hpo) with ⟨r, hr, rfl⟩
  exact ⟨r, hr, rfl⟩

/-- The collapsed row of a PO with at least one line is that PO's
first line. -/
theorem mkPORow_line (df : List Row) (po : String)
    (h : ∃ r ∈ df, r.poNo = po) :
    (df.filter (fun r => r.poNo = po)).head? = some (mkPORow df po).line ∧
    (mkPORow df po).line.poNo = po := by
  rcases h with ⟨r, hr, hrpo⟩
  have hmem : r ∈ df.filter (fun r => r.poNo = po) := by
    rw [List.mem_filter]
    exact ⟨hr, by simpa using hrpo⟩
  cases hf : df.filter (fun r => r.poNo = po) with
  | nil => rw [hf] at hmem; simp at hmem
  | cons a as =>
      have ha : a ∈ df.filter (fun r => r.poNo = po) := by
        rw [hf]; exact List.mem_cons_self _ _
      have hapo : a.poNo = po := by
        simpa using (List.mem_filter.mp ha).2
      constructor
      · rw [mkPORow]
        simp only [hf, List.head?]
        rfl
      · rw [mkPORow]
        simp only [hf, List.head?]
        simpa using hapo

/-! ## Claim theorems -/

/-- C1: in every PO-level aggregate row produced by
`compute_po_level_metrics`, the `OTIF` flag is the logical AND of the
`PO_Fulfilled` flag and the `OnTime` flag: both flags are 0/1-valued,
`(1,1)` yields `OTIF = 1`, and any 0 flag yields `OTIF = 0`. -/
theorem C1_otif_is_and (df : List Row) (p : PORow)
    (hp : p ∈ compute_po_level_metrics df) :
    (p.poFulfilled = 1 ∧ p.onTime = 1 → p.otif = 1) ∧
    ((p.poFulfilled = 0 ∨ p.onTime = 0) → p.otif = 0) ∧
    (p.poFulfilled = 0 ∨ p.poFulfilled = 1) ∧
    (p.onTime = 0 ∨ p.onTime = 1) := by
  rcases mem_compute_po df p hp with ⟨po, hpo, rfl⟩
  have hfp : (mkPORow df po).poFulfilled = po_fulfilled df po := rfl
  have hot : (mkPORow df po).onTime = po_ontime df po := rfl
  have hof : (mkPORow df po).otif = po_fulfilled df po * po_ontime df po := rfl
  rw [hfp, hot, hof]
  refine ⟨?_, ?_, po_fulfilled_binary df po, po_ontime_binary df po⟩
  · rintro ⟨h1, h2⟩
    rw [h1, h2]
  · rintro (h | h) <;> rw [h] <;> simp

/-- C1 witness: the example PO `P1` (one item under-delivered, one
line late) has both flags 0 and `OTIF = 0`. -/
theorem C1_witness :
    exPO1 ∈ compute_po_level_metrics exDf ∧
    exPO1.poFulfilled = 0 ∧ exPO1.onTime = 0 ∧ exPO1.otif = 0 ∧
    ((exPO1.poFulfilled = 0 ∨ exPO1.onTime = 0) → exPO1.otif = 0) :=
  ⟨by decide, by decide, by decide, by decide,
   (C1_otif_is_and exDf exPO1 (by decide)).2.1⟩

/-- C2: a PO of the input is In-Full (`PO_Fulfilled = 1`) exactly when
every `(PO number, material code)` group of it has summed inward
quantity at least `0.95` times the summed ordered quantity; one group
below the threshold makes `PO_Fulfilled = 0` (it is a `min` of the
per-item flags). -/
theorem C2_in_full_iff (df : List Row) (po : String)
    (hpo : po ∈ df.map (fun r => r.poNo)) :
    po_fulfilled df po = 1 ↔
      ∀ k ∈ itemKeysOf df, k.1 = po →
        inwardSum df k.1 k.2 ≥ (95 / 100 : ℚ) * orderedSum df k.1 k.2 := by
  have hbin : ∀ x ∈ ((itemKeysOf df).filter (fun k => k.1 = po)).map
      (fun k => itemFulfilled df k.1 k.2), x = 0 ∨ x = 1 := by
    intro x hx
    rcases List.mem_map.mp hx with ⟨k, _, rfl⟩
    exact itemFulfilled_binary df k.1 k.2
  rw [po_fulfilled, (foldr_min_flags _ hbin).1]
  constructor
  · intro h k hk hk1
    have h1 : itemFulfilled df k.1 k.2 = 1 := by
      refine h _ (List.mem_map.mpr ⟨k, List.mem_filter.mpr ⟨hk, ?_⟩, rfl⟩)
      simpa using hk1
    rw [itemFulfilled] at h1
    by_contra hlt
    rw [if_neg hlt] at h1
    simp at h1
  · intro h x hx
    rcases List.mem_map.mp hx with ⟨k, hk, rfl⟩
    rcases List.mem_filter.mp hk with ⟨hk1, hk2⟩
    rw [itemFulfilled, if_pos (h k hk1 (by simpa using hk2))]

/-- C2 witness: in the example, PO `P1` has items `M1` (100 of 100)
and `M2` (90 of 100, below threshold), and is not In-Full. -/
theorem C2_witness :
    ("P1" ∈ exDf.map (fun r => r.poNo)) ∧
    po_fulfilled exDf "P1" = 0 ∧
    (po_fulfilled exDf "P1" = 1 ↔
      ∀ k ∈ itemKeysOf exDf, k.1 = "P1" →
        inwardSum exDf k.1 k.2 ≥ (95 / 100 : ℚ) * orderedSum exDf k.1 k.2) :=
  ⟨by decide, by decide, C2_in_full_iff exDf "P1" (by decide)⟩

/-- C3: a PO of the input is On-Time (`OnTime = 1`) exactly when every
line of it has GRN date at most PO date plus that line's own lead
time; a single late line forces `OnTime = 0`. -/
theorem C3_on_time_iff (df : List Row) (po : String)
    (hpo : po ∈ df.map (fun r => r.poNo)) :
    (po_ontime df po = 1 ↔
      ∀ r ∈ df, r.poNo = po → r.gnrDt ≤ r.poDt + (r.leadTime : Int)) ∧
    ((∃ r ∈ df, r.poNo = po ∧ r.poDt + (r.leadTime : Int) < r.gnrDt) →
      po_ontime df po = 0) := by
  have hiff : (df.filter (fun r => r.poNo = po)).all
      (fun r => r.gnrDt ≤ r.poDt + (r.leadTime : Int)) = true ↔
      ∀ r ∈ df, r.poNo = po → r.gnrDt ≤ r.poDt + (r.leadTime : Int) := by
    rw [List.all_eq_true]
    constructor
    · intro h r hr hrpo
      have := h r (List.mem_filter.mpr ⟨hr, by simpa using hrpo⟩)
      simpa using this
    · intro h r hr
      rcases List.mem_filter.mp hr with ⟨h1, h2⟩
      simpa using h r h1 (by simpa using h2)
  constructor
  · rw [po_ontime]
    split_ifs with h
    · exact iff_of_true rfl (hiff.mp h)
    · constructor
      · intro h01; simp at h01
      · intro hall; exact absurd (hiff.mpr hall) h
  · rintro ⟨r, hr, hrpo, hlate⟩
    rw [po_ontime, if_neg]
    intro hall
    exact absurd (hiff.mp hall r hr hrpo) (not_le.mpr hlate)

/-- C3 witness: in the example, PO `P1` has a line received Feb-3
against a due date of Jan-31 and is not On-Time. -/
theorem C3_witness :
    ("P1" ∈ exDf.map (fun r => r.poNo)) ∧
    po_ontime exDf "P1" = 0 ∧
    (po_ontime exDf "P1" = 1 ↔
      ∀ r ∈ exDf, r.poNo = "P1" → r.gnrDt ≤ r.poDt + (r.leadTime : Int)) :=
  ⟨by decide, by decide, (C3_on_time_iff exDf "P1" (by decide)).1⟩

/-- C5: the bucketing GRN date of an aggregate row is the maximum GRN
date over that PO's input lines (it is attained by a line and bounds
every line), and the `Year`, numeric month, and month-abbreviation
fields are all derived from that maximum date. -/
theorem C5_bucket_is_max (df : List Row) (p : PORow)
    (hp : p ∈ compute_po_level_metrics df) :
    (∃ r ∈ df, r.poNo = p.line.poNo ∧ r.gnrDt = p.gnrDt) ∧
    (∀ r ∈ df, r.poNo = p.line.poNo → r.gnrDt ≤ p.gnrDt) ∧
    p.year = yearOfDay p.gnrDt ∧
    p.monthNum = monthOfDay p.gnrDt ∧
    p.month = monthAbbrev (monthOfDay p.gnrDt) := by
  rcases mem_compute_po df p hp with ⟨po, hpo, rfl⟩
  have hline : (mkPORow df po).line.poNo = po :=
    (mkPORow_line df po (poNosOf_exists_line df po hpo)).2
  rcases poNosOf_exists_line df po hpo with ⟨r0, hr0, hr0po⟩
  have hmem0 : r0 ∈ df.filter (fun r => r.poNo = po) :=
    List.mem_filter.mpr ⟨hr0, by simpa using hr0po⟩
  have hne : (df.filter (fun r => r.poNo = po)).map (fun r => r.gnrDt) ≠ [] := by
    intro h
    have : r0.gnrDt ∈ (df.filter (fun r => r.poNo = po)).map (fun r => r.gnrDt) :=
      List.mem_map.mpr ⟨r0, hmem0, rfl⟩
    rw [h] at this
    simp at this
  rcases listMax_isSome _ hne with ⟨m, hm⟩
  have hbg : bucketGnr df po = m := by rw [bucketGnr, hm]; rfl
  have hgnr : (mkPORow df po).gnrDt = bucketGnr df po := rfl
  refine ⟨?_, ?_, rfl, rfl, rfl⟩
  · rcases List.mem_map.mp (listMax_mem _ m hm) with ⟨r, hrmem, hrg⟩
    rcases List.mem_filter.mp hrmem with ⟨hrdf, hrpo⟩
    refine ⟨r, hrdf, ?_, ?_⟩
    · rw [hline]; simpa using hrpo
    · rw [hgnr, hbg]; exact hrg
  · intro r hrdf hrpo
    rw [hgnr, hbg]
    refine listMax_ub _ m hm _ (List.mem_map.mpr ⟨r, ?_, rfl⟩)
    refine List.mem_filter.mpr ⟨hrdf, ?_⟩
    rw [hline] at hrpo
    simpa using hrpo

/-- C5 witness: the example PO `P1` has lines received Jan-15-2024 and
Feb-3-2024; its aggregate row buckets on Feb-3-2024 (year 2024, month
2, abbreviation `"Feb"`). -/
theorem C5_witness :
    exPO1 ∈ compute_po_level_metrics exDf ∧
    exPO1.gnrDt = daysFromCivil 2024 2 3 ∧
    exPO1.year = 2024 ∧ exPO1.monthNum = 2 ∧ exPO1.month = "Feb" ∧
    (∀ r ∈ exDf, r.poNo = exPO1.line.poNo → r.gnrDt ≤ exPO1.gnrDt) :=
  ⟨by decide, by decide, by decide, by decide, by decide,
   (C5_bucket_is_max exDf exPO1 (by decide)).2.1⟩

/-- C8: the PO-level aggregate has exactly one row per distinct PO
number of the input, and each aggregate row's line-level attributes
are those of the first input line of that PO. -/
theorem C8_one_row_per_po (df : List Row) :
    (compute_po_level_metrics df).length =
      (df.map (fun r => r.poNo)).toFinset.card ∧
    ∀ p ∈ compute_po_level_metrics df,
      (df.filter (fun r => r.poNo = p.line.poNo)).head? = some p.line := by
  constructor
  · rw [compute_po_level_metrics, List.length_map, poNosOf, length_dedupFirst]
  · intro p hp
    rcases mem_compute_po df p hp with ⟨po, hpo, rfl⟩
    have h := mkPORow_line df po (poNosOf_exists_line df po hpo)
    rw [h.2]
    exact h.1

/-- The loop of `compute_lead_time_for_row` over the fixed category
table: first-match case analysis over the four buckets. -/
theorem findBucket_cases (low : String) :
    (low ∈ lowsOf 7 → findBucket PPM_CATEGORY_MAP low = some 7) ∧
    (low ∉ lowsOf 7 → low ∈ lowsOf 12 →
      findBucket PPM_CATEGORY_MAP low = some 12) ∧
    (low ∉ lowsOf 7 → low ∉ lowsOf 12 → low ∈ lowsOf 90 →
      findBucket PPM_CATEGORY_MAP low = some 90) ∧
    (low ∉ lowsOf 7 → low ∉ lowsOf 12 → low ∉ lowsOf 90 → low ∈ lowsOf 15 →
      findBucket PPM_CATEGORY_MAP low = some 15) ∧
    ((∀ p ∈ PPM_CATEGORY_MAP, low ∉ p.2.map (fun c => lowerStr c)) →
      findBucket PPM_CATEGORY_MAP low = none) := by
  refine ⟨?_, ?_, ?_, ?_, ?_⟩
  · intro h7
    simp only [PPM_CATEGORY_MAP, findBucket]
    rw [if_pos (by exact h7)]
  · intro h7 h12
    simp only [PPM_CATEGORY_MAP, findBucket]
    rw [if_neg (by exact h7), if_pos (by exact h12)]
  · intro h7 h12 h90
    simp only [PPM_CATEGORY_MAP, findBucket]
    rw [if_neg (by exact h7), if_neg (by exact h12), if_pos (by exact h90)]
  · intro h7 h12 h90 h15
    simp only [PPM_CATEGORY_MAP, findBucket]
    rw [if_neg (by exact h7), if_neg (by exact h12), if_neg (by exact h90),
      if_pos (by exact h15)]
  · intro hall
    have h7 := hall (7, ["Vial", "Rubber Stopper", "Rubber", "Stopper", "Seal",
      "Cap", "Collar", "Inner Cap", "Outer Cap"]) (by decide)
    have h12 := hall (12, ["Ampoule", "Amp"]) (by decide)
    have h90 := hall (90, ["Pfs Syringe", "Plunger Stopper", "Plunger",
      "U plug", "U-plug"]) (by decide)
    have h15 := hall (15, ["Al Tube", "Plastic Bottle", "Plastic Nozzle",
      "Nozzle"]) (by decide)
    simp only [PPM_CATEGORY_MAP, findBucket]
    rw [if_neg (by exact h7), if_neg (by exact h12), if_neg (by exact h90),
      if_neg (by exact h15)]

/-- C4: the lead-time resolver returns the rule-set day count whenever
the trimmed upper-cased material type is a rule key; otherwise, for
material type `PPM`, it matches the trimmed item category
case-insensitively and exactly against the four fixed buckets in
insertion order (7, 12, 90, 15 days), returning the first matching
bucket's day count, and 30 when the category is empty or unmatched;
in particular `Vial` resolves to 7 and `Ampoule` to 12. -/
theorem C4_lead_time (rules : List (String × Nat)) (mt cat : String) :
    (∀ v, lookupRule rules (upperStr (pyStrip mt)) = some v →
      compute_lead_time_for_row rules mt cat = some v) ∧
    (lookupRule rules (upperStr (pyStrip mt)) = none →
      upperStr (pyStrip mt) = "PPM" →
      ((pyStrip cat = "" → compute_lead_time_for_row rules mt cat = some 30) ∧
       (lowerStr (pyStrip cat) ∈ lowsOf 7 →
         compute_lead_time_for_row rules mt cat = some 7) ∧
       (lowerStr (pyStrip cat) ∉ lowsOf 7 → lowerStr (pyStrip cat) ∈ lowsOf 12 →
         compute_lead_time_for_row rules mt cat = some 12) ∧
       (lowerStr (pyStrip cat) ∉ lowsOf 7 → lowerStr (pyStrip cat) ∉ lowsOf 12 →
         lowerStr (pyStrip cat) ∈ lowsOf 90 →
         compute_lead_time_for_row rules mt cat = some 90) ∧
       (lowerStr (pyStrip cat) ∉ lowsOf 7 → lowerStr (pyStrip cat) ∉ lowsOf 12 →
         lowerStr (pyStrip cat) ∉ lowsOf 90 → lowerStr (pyStrip cat) ∈ lowsOf 15 →
         compute_lead_time_for_row rules mt cat = some 15) ∧
       ((∀ p ∈ PPM_CATEGORY_MAP, lowerStr (pyStrip cat) ∉ p.2.map (fun c => lowerStr c)) →
         compute_lead_time_for_row rules mt cat = some 30))) ∧
    compute_lead_time_for_row DEFAULT_RULES "PPM" "Vial" = some 7 ∧
    compute_lead_time_for_row DEFAULT_RULES "PPM" "Ampoule" = some 12 := by
  refine ⟨?_, ?_, by decide, by decide⟩
  · intro v hv
    simp only [compute_lead_time_for_row, hv]
  · intro hlook hppm
    have hlook2 : lookupRule rules "PPM" = none := by rw [← hppm]; exact hlook
    have hshape : pyStrip cat ≠ "" →
        compute_lead_time_for_row rules mt cat =
          (match findBucket PPM_CATEGORY_MAP (lowerStr (pyStrip cat)) with
           | some lt => some lt
           | none => some DEFAULT_PPM_LT) := by
      intro hcat
      simp only [compute_lead_time_for_row, hppm, hlook2]
      simp [hcat]
    have hC := findBucket_cases (lowerStr (pyStrip cat))
    refine ⟨?_, ?_, ?_, ?_, ?_, ?_⟩
    · intro hcat
      simp only [compute_lead_time_for_row, hppm, hlook2]
      simp [hcat, DEFAULT_PPM_LT]
    · intro h7
      have hcat : pyStrip cat ≠ "" := by
        intro h0
        rw [h0] at h7
        exact absurd h7 (by decide)
      rw [hshape hcat, hC.1 h7]
    · intro h7 h12
      have hcat : pyStrip cat ≠ "" := by
        intro h0
        rw [h0] at h12
        exact absurd h12 (by decide)
      rw [hshape hcat, hC.2.1 h7 h12]
    · intro h7 h12 h90
      have hcat : pyStrip cat ≠ "" := by
        intro h0
        rw [h0] at h90
        exact absurd h90 (by decide)
      rw [hshape hcat, hC.2.2.1 h7 h12 h90]
    · intro h7 h12 h90 h15
      have hcat : pyStrip cat ≠ "" := by
        intro h0
        rw [h0] at h15
        exact absurd h15 (by decide)
      rw [hshape hcat, hC.2.2.2.1 h7 h12 h90 h15]
    · intro hall
      by_cases hcat : pyStrip cat = ""
      · simp only [compute_lead_time_for_row, hppm, hlook2]
        simp [hcat, DEFAULT_PPM_LT]
      · rw [hshape hcat, hC.2.2.2.2 hall]
        simp [DEFAULT_PPM_LT]

/-- C4 witness: with the default rule set, `PPM`/`Vial` resolves to 7
days and `PPM`/`Ampoule` to 12. -/
theorem C4_witness :
    lookupRule DEFAULT_RULES "PPM" = none ∧
    compute_lead_time_for_row DEFAULT_RULES "PPM" "Vial" = some 7 ∧
    compute_lead_time_for_row DEFAULT_RULES "PPM" "Ampoule" = some 12 :=
  ⟨by decide, (C4_lead_time DEFAULT_RULES "PPM" "Vial").2.2.1,
   (C4_lead_time DEFAULT_RULES "PPM" "Ampoule").2.2.2⟩

/-- C10: the four fixed PPM category buckets are pairwise disjoint
under case-insensitive comparison: no member of one bucket occurs,
lower-cased, in the lower-cased member list of a different bucket. -/
theorem C10_buckets_disjoint :
    ∀ p ∈ PPM_CATEGORY_MAP, ∀ q ∈ PPM_CATEGORY_MAP, p ≠ q →
      ∀ s ∈ p.2, lowerStr s ∉ q.2.map (fun c => lowerStr c) := by decide

/-- C10 witness: `Vial` (bucket 7) does not occur in bucket 12's
lower-cased member list. -/
theorem C10_witness :
    lowerStr "Vial" ∉ (["Ampoule", "Amp"].map (fun c => lowerStr c)) :=
  C10_buckets_disjoint
    (7, ["Vial", "Rubber Stopper", "Rubber", "Stopper", "Seal", "Cap",
         "Collar", "Inner Cap", "Outer Cap"]) (by decide)
    (12, ["Ampoule", "Amp"]) (by decide) (by decide) "Vial" (by decide)

/-- C8 witness: the example input has 3 lines over 2 distinct POs and
its aggregate has 2 rows; `P1`'s aggregate row keeps the first `P1`
line. -/
theorem C8_witness :
    (compute_po_level_metrics exDf).length =
      (exDf.map (fun r => r.poNo)).toFinset.card ∧
    (exDf.map (fun r => r.poNo)).toFinset.card = 2 ∧ exDf.length = 3 ∧
    (exDf.filter (fun r => r.poNo = exPO1.line.poNo)).head? = some exPO1.line :=
  ⟨(C8_one_row_per_po exDf).1, by decide, by decide,
   (C8_one_row_per_po exDf).2 exPO1 (by decide)⟩

/-- C6: after header normalization, loading fails exactly when some
required canonical column is absent; row-level coercion never fails:
rows whose coerced date/quantity cells are missing are silently
dropped (the row count only shrinks), the rest are kept. -/
theorem C6_schema_error_iff (headers : List String) (rows : List RawRow) :
    ((∃ e, load_and_clean headers = Except.error e) ↔
      ∃ c ∈ REQUIRED_COLS, c ∉ standardize_column_names headers) ∧
    (ensure_types_and_drop_nulls rows).length ≤ rows.length ∧
    (∀ r ∈ ensure_types_and_drop_nulls rows, r ∈ rows ∧
      r.poDt.isSome = true ∧ r.gnrDt.isSome = true ∧
      r.poQty.isSome = true ∧ r.inwardQty.isSome = true) ∧
    (∀ r ∈ rows, r.poDt.isSome = true → r.gnrDt.isSome = true →
      r.poQty.isSome = true → r.inwardQty.isSome = true →
      r ∈ ensure_types_and_drop_nulls rows) := by
  refine ⟨?_, List.length_filter_le _ _, ?_, ?_⟩
  · simp only [load_and_clean]
    split_ifs with h
    · constructor
      · intro _
        rcases List.exists_mem_of_ne_nil _ h with ⟨c, hc⟩
        rcases List.mem_filter.mp hc with ⟨h1, h2⟩
        exact ⟨c, h1, by simpa using h2⟩
      · intro _
        exact ⟨_, rfl⟩
    · rw [ne_eq, not_not] at h
      constructor
      · rintro ⟨e, he⟩
        cases he
      · rintro ⟨c, hc1, hc2⟩
        have hmem : c ∈ REQUIRED_COLS.filter
            (fun c => ¬ c ∈ standardize_column_names headers) :=
          List.mem_filter.mpr ⟨hc1, by simpa using hc2⟩
        rw [h] at hmem
        simp at hmem
  · intro r hr
    rcases List.mem_filter.mp hr with ⟨h1, h2⟩
    simp only [Bool.and_eq_true] at h2
    exact ⟨h1, h2.1.1.1, h2.1.1.2, h2.1.2, h2.2⟩
  · intro r hr h1 h2 h3 h4
    refine List.mem_filter.mpr ⟨hr, ?_⟩
    simp [h1, h2, h3, h4]

/-- C6 witness: a header set covering all ten required columns loads;
dropping a required column errors; a row with an unparseable quantity
(coerced to missing) is silently dropped while the parseable row is
kept. -/
theorem C6_witness :
    load_and_clean exHeaders = Except.ok REQUIRED_COLS ∧
    load_and_clean ["Mat Type"] = Except.error "Input file missing required columns" ∧
    (∃ c ∈ REQUIRED_COLS, c ∉ standardize_column_names ["Mat Type"]) ∧
    ensure_types_and_drop_nulls exRaw = [exRawGood] ∧
    (ensure_types_and_drop_nulls exRaw).length ≤ exRaw.length :=
  ⟨by rfl, by rfl, by decide, by decide,
   (C6_schema_error_iff exHeaders exRaw).2.1⟩

/-- C7 counterexample: the header `"  Foo   Bar "` normalizes to the
key `"foobar"`, which matches no synonym entry; the claim predicts
the whitespace-cleaned `"Foo Bar"`, but `standardize_column_names`
returns the original header unchanged. -/
theorem C7_counterexample :
    keyOf (cleanWs "  Foo   Bar ") ∉ synonymKeys ∧
    cleanWs "  Foo   Bar " = "Foo Bar" ∧
    standardize_column_names ["  Foo   Bar "] = ["  Foo   Bar "] ∧
    ("  Foo   Bar " : String) ≠ "Foo Bar" := by decide

/-- A header key outside the synonym table falls through every branch
of `canon` and is returned unchanged. -/
theorem canon_unmatched (col : String)
    (hkey : keyOf (cleanWs col) ∉ synonymKeys) : canon col = col := by
  have hsub : ∀ sub : List String, (∀ x ∈ sub, x ∈ synonymKeys) →
      keyOf (cleanWs col) ∉ sub := fun sub hs hm => hkey (hs _ hm)
  have huom : ¬ keyOf (cleanWs col) = "uom" :=
    fun he => hkey (he ▸ (by decide : ("uom" : String) ∈ synonymKeys))
  simp only [canon]
  rw [if_neg (hsub ["mattype", "materialtype"] (by decide)),
    if_neg (hsub ["materialcode", "matcode", "material_code"] (by decide)),
    if_neg (hsub ["materialname", "itemname", "material"] (by decide)),
    if_neg huom,
    if_neg (hsub ["podt", "podat", "podate", "podate"] (by decide)),
    if_neg (hsub ["pono", "ponumber", "po"] (by decide)),
    if_neg (hsub ["supplier", "suppliername"] (by decide)),
    if_neg (hsub ["poqty", "purchaseorderqty", "quantityordered", "quantity"]
      (by decide)),
    if_neg (hsub ["gnrdt", "grndt", "grndate", "grn", "grndate"] (by decide)),
    if_neg (hsub ["inwardqty", "inwardquantity", "receivedqty",
      "receivedquantity"] (by decide)),
    if_neg (hsub ["itemcategory", "itemcat", "category"] (by decide))]

/-- C7 (amended): a header whose normalization key matches no synonym
entry is never discarded and is returned entirely unchanged (original
whitespace included), hence never coerced into a canonical name; the
output has the same length as the input. -/
theorem C7_unmatched_passthrough (cols : List String) :
    (standardize_column_names cols).length = cols.length ∧
    ∀ col ∈ cols, keyOf (cleanWs col) ∉ synonymKeys → canon col = col :=
  ⟨List.length_map _ _, fun col _ hkey => canon_unmatched col hkey⟩

/-- C7 witness: the unmatched header `"  Foo   Bar "` passes through
unchanged and the output length matches the input length. -/
theorem C7_witness :
    keyOf (cleanWs "  Foo   Bar ") ∉ synonymKeys ∧
    canon "  Foo   Bar " = "  Foo   Bar " ∧
    (standardize_column_names ["  Foo   Bar ", "Mat Type"]).length = 2 :=
  ⟨by decide,
   (C7_unmatched_passthrough ["  Foo   Bar "]).2 "  Foo   Bar "
     (by decide) (by decide),
   (C7_unmatched_passthrough ["  Foo   Bar ", "Mat Type"]).1⟩

/-- Every row produced by the category left join comes from an input
row, paired either with no reference match or with a category the
reference associates to its material code. -/
theorem mem_leftJoinCats (ref : List (String × String)) (df : List CatRow)
    (rm : CatRow × Option String) (h : rm ∈ leftJoinCats ref df) :
    rm.1 ∈ df ∧ (rm.2 = none ∨
      ∃ c, rm.2 = some c ∧ (rm.1.materialCode, c) ∈ ref) := by
  rw [leftJoinCats] at h
  rcases List.mem_flatMap.mp h with ⟨r, hr, hmem⟩
  cases hlc : lookupCats ref r.materialCode with
  | nil =>
      rw [hlc] at hmem
      simp at hmem
      subst hmem
      exact ⟨hr, Or.inl rfl⟩
  | cons m ms =>
      rw [hlc] at hmem
      rcases List.mem_map.mp hmem with ⟨c, hc, rfl⟩
      refine ⟨hr, Or.inr ⟨c, rfl, ?_⟩⟩
      have hc2 : c ∈ lookupCats ref r.materialCode := by rw [hlc]; exact hc
      rw [lookupCats] at hc2
      rcases List.mem_map.mp hc2 with ⟨p, hp, rfl⟩
      obtain ⟨p1, p2⟩ := p
      rcases List.mem_filter.mp hp with ⟨hp1, hp2⟩
      have hp2' : p1 = r.materialCode := by simpa using hp2
      subst hp2'
      exact hp1

/-- C9: the category enricher's output never has a missing item
category (missing becomes the empty string), and when the input
already carries an item-category column, every output row descends
from an input row with the same material code whose non-null category
value is preserved unchanged; null values are backfilled from the
reference join (or filled to the empty string). -/
theorem C9_category_preserved (ref : List (String × String)) (b : Bool)
    (df : List CatRow) :
    (∀ q ∈ merge_item_category ref b df, q.itemCat.isSome = true) ∧
    (∀ q ∈ merge_item_category ref true df, ∃ r ∈ df,
      r.materialCode = q.materialCode ∧
      (∀ v, r.itemCat = some v → q.itemCat = some v) ∧
      (r.itemCat = none → q.itemCat = some "" ∨
        ∃ c, q.itemCat = some c ∧ (q.materialCode, c) ∈ ref)) := by
  constructor
  · intro q hq
    cases b with
    | false =>
        rw [merge_item_category] at hq
        rcases List.mem_map.mp hq with ⟨rm, _, rfl⟩
        rfl
    | true =>
        rw [merge_item_category] at hq
        rcases List.mem_map.mp hq with ⟨rm, _, rfl⟩
        rfl
  · intro q hq
    rw [merge_item_category] at hq
    rcases List.mem_map.mp hq with ⟨rm, hrm, rfl⟩
    rcases mem_leftJoinCats ref df rm hrm with ⟨hr1, hcase⟩
    refine ⟨rm.1, hr1, rfl, ?_, ?_⟩
    · intro v hv
      simp [hv, Option.orElse]
    · intro hnone
      rcases hcase with h2 | ⟨c, hc, hcref⟩
      · left
        simp [hnone, h2, Option.orElse]
      · right
        exact ⟨c, by simp [hnone, hc, Option.orElse], hcref⟩

/-- C9 witness: with reference `[("M1", "Vial")]`, the null category
of `M1` is backfilled to `"Vial"` while `M2`'s existing `"Tube"` is
preserved; no output category is missing. -/
theorem C9_witness :
    merge_item_category exRef true exCatDf =
      [{ materialCode := "M1", itemCat := some "Vial" },
       { materialCode := "M2", itemCat := some "Tube" }] ∧
    (∀ q ∈ merge_item_category exRef true exCatDf, q.itemCat.isSome = true) :=
  ⟨by decide, (C9_category_preserved exRef true exCatDf).1⟩

end OTIF
